import Mathlib

/-
  Verification of the web3url-gateway core against its specification.

  The Go source is shallowly embedded: bytes are lists of Fin 256,
  Go strings are Lean strings (operated on through their char lists,
  which coincides with Go's byte-level operations on the ASCII data
  these functions manipulate), Go maps are functions into Option, and
  the external capabilities (keccak-256, the ABI codec, the IDNA
  normalizer, the JSON encoder, and the RPC transport) are parameters
  gathered in capability records, mirroring the specification's
  treatment of them as injected interfaces.

  Fallible Go functions returning (value, error) pairs become Except
  or explicit pairs; Go code that can dereference a nil interface or
  index out of range is given an explicit "panics" outcome.
-/

namespace Web3Gateway

/-! ### Bytes and hex encoding (go-ethereum common.Bytes2Hex et al.) -/

abbrev Byte := Fin 256
abbrev Bytes := List Byte

/-- Lower-case hex digit for a value below 16, as in the hex package table
"0123456789abcdef". -/
def hexDigit (n : Nat) : Char :=
  if n < 10 then Char.ofNat (48 + n) else Char.ofNat (87 + n)

/-- hex.EncodeToString: two lower-case hex chars per byte. -/
def bytesToHexChars : Bytes → List Char
  | [] => []
  | b :: rest => hexDigit (b.val / 16) :: hexDigit (b.val % 16) :: bytesToHexChars rest

/-- common.Bytes2Hex. -/
def Bytes2Hex (bs : Bytes) : String := String.mk (bytesToHexChars bs)

/-! ### String helpers mirroring the Go standard library -/

/-- strings.HasPrefix. -/
def goStartsWith (s pre : String) : Bool := pre.data.isPrefixOf s.data

/-- strings.Split with a single-character separator: split at every
occurrence, producing (number of separators + 1) pieces. -/
def splitChar (sep : Char) : List Char → List (List Char)
  | [] => [[]]
  | ch :: rest =>
    match splitChar sep rest with
    | [] => [[ch]]
    | piece :: pieces =>
      if ch = sep then [] :: piece :: pieces else (ch :: piece) :: pieces

/-- strings.Split for a one-character separator, over Lean strings. -/
def goSplit (s : String) (sep : Char) : List String :=
  (splitChar sep s.data).map String.mk

/-- strings.Trim(s, "()"): strip every leading and trailing parenthesis. -/
def isParen (ch : Char) : Bool := ch = '(' || ch = ')'

def trimParens (s : String) : String :=
  String.mk (((s.data.dropWhile isParen).reverse.dropWhile isParen).reverse)

/-- strings.ToLower restricted to ASCII letters; the gateway only looks up
ASCII chain short names. -/
def goToLower (s : String) : String := String.mk (s.data.map Char.toLower)

/-! ### Small facts about strings used throughout the proofs -/

theorem string_eq_of_data {a b : String} (h : a.data = b.data) : a = b := by
  cases a; cases b; exact congrArg String.mk h

theorem data_append (a b : String) : (a ++ b).data = a.data ++ b.data := rfl

theorem sappend_assoc (a b c : String) : a ++ b ++ c = a ++ (b ++ c) :=
  string_eq_of_data (by simp [data_append])

theorem sappend_empty (a : String) : a ++ "" = a :=
  string_eq_of_data (by simp [data_append])

/-! ### Injectivity of the hex encoding -/

theorem hexDigit_inj_fin : ∀ a b : Fin 16, hexDigit a.val = hexDigit b.val → a = b := by decide

theorem hexDigit_inj {a b : Nat} (ha : a < 16) (hb : b < 16) (h : hexDigit a = hexDigit b) :
    a = b := by
  have := hexDigit_inj_fin ⟨a, ha⟩ ⟨b, hb⟩ h
  simpa [Fin.ext_iff] using this

theorem bytesToHexChars_inj : ∀ bs cs : Bytes, bytesToHexChars bs = bytesToHexChars cs → bs = cs := by
  intro bs
  induction bs with
  | nil =>
    intro cs h
    cases cs with
    | nil => rfl
    | cons c cr => simp [bytesToHexChars] at h
  | cons b br ih =>
    intro cs h
    cases cs with
    | nil => simp [bytesToHexChars] at h
    | cons c cr =>
      simp only [bytesToHexChars, List.cons.injEq] at h
      obtain ⟨h1, h2, h3⟩ := h
      have hdiv : b.val / 16 = c.val / 16 :=
        hexDigit_inj (by omega) (by omega) h1
      have hmod : b.val % 16 = c.val % 16 :=
        hexDigit_inj (by omega) (by omega) h2
      have hbv : b.val = c.val := by omega
      have : b = c := Fin.ext hbv
      simp [this, ih cr h3]

theorem Bytes2Hex_inj {bs cs : Bytes} (h : Bytes2Hex bs = Bytes2Hex cs) : bs = cs := by
  apply bytesToHexChars_inj
  have := congrArg String.data h
  simpa [Bytes2Hex] using this

/-! ### Error and result model -/

/-- Web3Error: the uniform user-surfaced failure record. -/
structure Web3Error where
  httpCode : Nat
  message : String
deriving DecidableEq, Repr

/-- A Go error value is either a *Web3Error or a plain error (errors.New /
a library error). -/
inductive GoError where
  | web3 : Web3Error → GoError
  | plain : String → GoError
deriving DecidableEq, Repr

/-- Outcome of a Go function that may return a value, return an error, or
panic at runtime (nil-interface dereference, failed type assertion,
out-of-range index). -/
inductive GoResult (α : Type) where
  | ok : α → GoResult α
  | err : GoError → GoResult α
  | panics : String → GoResult α
deriving DecidableEq, Repr

/-! ### Addresses and hashes (go-ethereum common) -/

/-- common.Address is [20]byte; we carry it as a byte list produced by
BytesToAddress. -/
abbrev Address := Bytes

/-- Value of one hex character, if any: the ranges 0-9, a-f, A-F of
go-ethereum's isHexCharacter, written on character codes. -/
def hexCharVal (ch : Char) : Option (Fin 16) :=
  let n := ch.toNat
  if h : 48 ≤ n ∧ n ≤ 57 then some ⟨n - 48, by omega⟩
  else if h : 97 ≤ n ∧ n ≤ 102 then some ⟨n - 87, by omega⟩
  else if h : 65 ≤ n ∧ n ≤ 70 then some ⟨n - 55, by omega⟩
  else none

/-- go-ethereum isHexCharacter. -/
def isHexCharacter (ch : Char) : Bool := (hexCharVal ch).isSome

/-- go-ethereum isHex: even length and only hex characters. -/
def isHexChars (l : List Char) : Bool :=
  l.length % 2 == 0 && l.all isHexCharacter

/-- go-ethereum's 0x-prefix test. -/
def goHas0x (l : List Char) : Bool :=
  match l with
  | a :: b :: _ => a = '0' && (b = 'x' || b = 'X')
  | _ => false

/-- common.IsHexAddress: after stripping an optional 0x prefix, exactly
40 hex characters. -/
def IsHexAddress (s : String) : Bool :=
  let l := if goHas0x s.data then s.data.drop 2 else s.data
  l.length == 40 && isHexChars l

/-- hex.DecodeString as used by common.Hex2Bytes: decode hex pairs,
stopping at the first invalid pair (the error is discarded). -/
def hex2Bytes : List Char → Bytes
  | a :: b :: rest =>
    match hexCharVal a, hexCharVal b with
    | some x, some y => (⟨x.val * 16 + y.val, by omega⟩ : Fin 256) :: hex2Bytes rest
    | _, _ => []
  | _ => []

/-- common.FromHex: strip an optional 0x prefix, left-pad to even length
with one '0', decode. -/
def FromHex (s : String) : Bytes :=
  let l := if goHas0x s.data then s.data.drop 2 else s.data
  let l := if l.length % 2 = 1 then '0' :: l else l
  hex2Bytes l

/-- common.Address.SetBytes: keep the last 20 bytes, left-padded with
zeros. -/
def BytesToAddress (b : Bytes) : Address :=
  let b := if b.length > 20 then b.drop (b.length - 20) else b
  List.replicate (20 - b.length) (0 : Byte) ++ b

/-- common.HexToAddress. -/
def HexToAddress (s : String) : Address := BytesToAddress (FromHex s)

/-- common.Hash.SetBytes: keep the last 32 bytes, left-padded with zeros. -/
def BytesToHash (b : Bytes) : Bytes :=
  let b := if b.length > 32 then b.drop (b.length - 32) else b
  List.replicate (32 - b.length) (0 : Byte) ++ b

/-- common.Hash.Hex: 0x-prefixed lower-case hex. -/
def hashHex (h : Bytes) : String := "0x" ++ Bytes2Hex h

/-- common.RightPadBytes(b, 32). -/
def rightPad32 (b : Bytes) : Bytes :=
  if b.length ≥ 32 then b else b ++ List.replicate (32 - b.length) (0 : Byte)

/-- The zero [32]byte value. -/
def zeroHash32 : Bytes := List.replicate 32 (0 : Byte)

/-- The zero common.Address value. -/
def zeroAddress : Address := List.replicate 20 (0 : Byte)

/-! ### Opaque ABI values and types (the Codec capability's currency) -/

/-- A Go interface value as handed around by the ABI codec and the JSON
formatter. Only the shapes the gateway inspects (string and byte-slice
type assertions) are distinguished; everything else is opaque. -/
inductive GoValue where
  | str : String → GoValue
  | bytes : Bytes → GoValue
  | other : Nat → GoValue
deriving DecidableEq, Repr

/-- abi.Type, carried by its canonical string form (abi.Type.String()). -/
structure ABIType where
  str : String
deriving DecidableEq, Repr

/-- The ethereum.CallMsg actually populated by the gateway: from is always
the zero address, gas/price/fee/value are always unset. -/
structure CallMsg where
  fromAddr : Address
  toAddr : Address
  data : Bytes
deriving DecidableEq, Repr

/-! ### Configuration records -/

/-- NameServiceInfo: kind and registry address of one name service. -/
structure NameServiceInfo where
  NSType : String
  NSAddr : String

/-- ChainConfig: RPC endpoint plus suffix-indexed name services. -/
structure ChainConfig where
  RPC : String
  NSConfig : String → Option NameServiceInfo

/-- Modelled from the spec: the name-service kind constants. The Go
declarations of SimpleNameService and Web3QNameService are not in the
provided sources; the spec fixes the kinds as {ens, w3ns, simple}. -/
def SimpleNameService : String := "simple"

def Web3QNameService : String := "w3ns"

def DomainNameServiceENS : String := "ens"

/-- Modelled from the spec: the ResolveMode constants. The Go declaration
of the ResolveMode type is not in the provided sources; the spec fixes
the modes as {auto, manual, resource-request}. -/
def ResolveModeAuto : String := "auto"

def ResolveModeManual : String := "manual"

def ResolveModeResourceRequests : String := "resource-request"

/-! ### The ABI codec capability and parseOutput -/

/-- The injected ABI codec: abi.NewType (returning a value and a possible
error, as in Go), abi.Arguments.UnpackValues, and the package's toJSON
value formatter (whose definition is outside the provided sources). -/
structure Codec where
  newType : String → ABIType × Option String
  unpack : List ABIType → Bytes → Except String (List GoValue)
  toJSON : ABIType → GoValue → GoValue × Option String

/-- The abi.Arguments-building loop of parseOutput: the first abi.NewType
error aborts with that error. -/
def buildTypes (c : Codec) : List String → Except String (List ABIType)
  | [] => .ok []
  | a :: rest =>
    match c.newType a with
    | (_, some e) => .error e
    | (ty, none) =>
      match buildTypes c rest with
      | .error e => .error e
      | .ok tys => .ok (ty :: tys)

/-- The final loop of parseOutput: res[i], _ = toJSON(arg.Type, res[i]) for
each declared argument; toJSON errors are discarded, values beyond the
declared arguments are left untouched, and indexing past the end of the
decoded values is a runtime panic. -/
def applyToJSON (c : Codec) : List ABIType → List GoValue → GoResult (List GoValue)
  | [], vs => .ok vs
  | _ :: _, [] => .panics "runtime error: index out of range"
  | ty :: tys, v :: vs =>
    match applyToJSON c tys vs with
    | .ok rest => .ok ((c.toJSON ty v).1 :: rest)
    | .err e => .err e
    | .panics p => .panics p

/-- parseOutput: parse the returned bytes into values according to the
returnTypes string. -/
def parseOutput (c : Codec) (output : Bytes) (userTypes : String) : GoResult (List GoValue) :=
  if userTypes = "()" then .ok [GoValue.str ("0x" ++ Bytes2Hex output)]
  else
    let returnTypes := if userTypes ≠ "" then userTypes else "(bytes)"
    let returnArgs := goSplit (trimParens returnTypes) ','
    match buildTypes c returnArgs with
    | .error e => .err (.web3 ⟨400, e⟩)
    | .ok tys =>
      match c.unpack tys output with
      | .error e => .err (.web3 ⟨400, e⟩)
      | .ok res => if userTypes ≠ "" then applyToJSON c tys res else .ok res

namespace Ens

/-- The sentinel for an ABI-encoded empty string return: offset 0x20
followed by length 0. -/
def EmptyString : String :=
  String.mk (List.replicate 62 '0') ++ "20" ++ String.mk (List.replicate 64 '0')

/-- The sentinel for an all-zero 32-byte (address) return. -/
def EmptyAddress : String := String.mk (List.replicate 64 '0')

/-- Configuration as consumed by the name-resolution file: chain
identifiers are strings there. -/
structure Config where
  ChainConfigs : String → Option ChainConfig
  Name2Chain : String → Option String

/-- The capabilities injected into the name resolver: the IDNA lookup
profile (p.ToUnicode, returning an output string and a possible error,
as in Go), keccak-256, UTF-8 encoding of a string, the RPC transport,
and the two argument helpers whose Go definitions are outside the
provided sources. handleCallContract and parseArguments are modelled
from the spec: handleCallContract performs one read call and maps
failures to a Web3Error; parseArguments builds the call message for a
method-plus-typed-arguments description. -/
structure Caps where
  toUnicode : String → String × Option String
  keccak : Bytes → Bytes
  strBytes : String → Bytes
  dial : String → Except String Unit
  call : CallMsg → Except String Bytes
  hcall : CallMsg → Except Web3Error Bytes
  parseArgs : String → Address → List String → Except Web3Error CallMsg
  codec : Codec

/-- Normalize: apply the IDNA lookup profile; on success, restore a
leading dot that the profile stripped. On error the profile output is
returned unchanged together with the error. -/
def Normalize (tu : String → String × Option String) (input : String) : String × Option String :=
  match tu input with
  | (output, some e) => (output, some e)
  | (output, none) =>
    if goStartsWith input "." && !(goStartsWith output ".") then ("." ++ output, none)
    else (output, none)

/-- nameHashPart: keccak256(currentHash || keccak256(bytes of the label)). -/
def nameHashPart (keccak : Bytes → Bytes) (strBytes : String → Bytes)
    (currentHash : Bytes) (name : String) : Bytes :=
  keccak (currentHash ++ keccak (strBytes name))

/-- NameHash: the empty name hashes to 32 zero bytes; otherwise normalize
the whole name, split on dots, and fold nameHashPart over the labels from
rightmost to leftmost starting from 32 zero bytes. A normalization error
is returned with the untouched zero hash. -/
def NameHash (c : Caps) (name : String) : Bytes × Option String :=
  if name = "" then (zeroHash32, none)
  else
    match Normalize c.toUnicode name with
    | (_, some e) => (zeroHash32, some e)
    | (normalizedName, none) =>
      ((goSplit normalizedName '.').foldr
        (fun part h => nameHashPart c.keccak c.strBytes h part) zeroHash32, none)

/-- getConfigs: look up the name-service record for the name's suffix on
the given chain. -/
def getConfigs (cfg : Config) (nameServiceChain nameWithSuffix : String) :
    Except Web3Error (NameServiceInfo × String) :=
  let ss := goSplit nameWithSuffix '.'
  if ss.length ≤ 1 then .error ⟨400, "invalid domain name: " ++ nameWithSuffix⟩
  else
    let suffix := ss.getLastD ""
    match cfg.ChainConfigs nameServiceChain with
    | none => .error ⟨400, "unsupported chain: " ++ nameServiceChain⟩
    | some chainInfo =>
      match chainInfo.NSConfig suffix with
      | none => .error ⟨400, "unsupported suffix: " ++ suffix⟩
      | some nsInfo => .ok (nsInfo, chainInfo.RPC)

/-- parseChainSpecificAddress: EIP-3770 chain-prefixed address support. -/
def parseChainSpecificAddress (cfg : Config) (addr : String) :
    Except Web3Error (Address × String) :=
  if IsHexAddress addr then .ok (HexToAddress addr, "")
  else
    match goSplit addr ':' with
    | [chainName, second] =>
      match cfg.Name2Chain (goToLower chainName) with
      | none => .error ⟨400, "unsupported chain short name from name service: " ++ addr⟩
      | some chainId =>
        if IsHexAddress second then .ok (HexToAddress second, chainId)
        else .error ⟨400, "invalid contract address from name service: " ++ addr⟩
    | _ => .error ⟨400, "invalid contract address from name service: " ++ addr⟩

/-- getResolver: resolver(bytes32 node) on the registry; an all-zero
return is a 400. -/
def getResolver (c : Caps) (nsAddr : Address)
    (node nameServiceChain nameWithSuffix : String) : Except Web3Error Address :=
  match c.parseArgs nameServiceChain nsAddr ["resolver", "bytes32!" ++ node] with
  | .error e => .error e
  | .ok msg =>
    match c.hcall msg with
    | .error e => .error e
    | .ok bs =>
      if Bytes2Hex bs = EmptyAddress then
        .error ⟨400, "Cannot get resolver for " ++ nameWithSuffix⟩
      else .ok (BytesToAddress bs)

/-- resolve: one read call; on an RPC error the error message is wrapped
into a 404; on an all-zero return with no RPC error the source calls
Error() on a nil error interface, a runtime panic. -/
def resolve (c : Caps) (cfg : Config) (nameServiceChain : String)
    (resolver : Address) (args : List String) : GoResult (Address × String) :=
  match c.parseArgs nameServiceChain resolver args with
  | .error e => .err (.web3 e)
  | .ok msg =>
    match c.call msg with
    | .error e => .err (.web3 ⟨404, e⟩)
    | .ok bs =>
      if Bytes2Hex bs = EmptyAddress then
        .panics "runtime error: invalid memory address or nil pointer dereference"
      else
        match parseOutput c.codec bs "address" with
        | .err e => .err e
        | .panics p => .panics p
        | .ok res =>
          match res with
          | GoValue.str s :: _ =>
            (match parseChainSpecificAddress cfg s with
             | .error e => .err (.web3 e)
             | .ok r => .ok r)
          | _ :: _ => .panics "interface conversion: interface is not string"
          | [] => .panics "runtime error: index out of range"

/-- getAddressFromNameService: the non-web-handler resolution variant. -/
def getAddressFromNameService (c : Caps) (cfg : Config)
    (nameServiceChain nameWithSuffix : String) : GoResult (Address × String) :=
  if IsHexAddress nameWithSuffix then .ok (HexToAddress nameWithSuffix, "")
  else
    match getConfigs cfg nameServiceChain nameWithSuffix with
    | .error we => .err (.web3 we)
    | .ok (nsInfo, rpc) =>
      match c.dial rpc with
      | .error _ => .err (.web3 ⟨500, "internal server error"⟩)
      | .ok _ =>
        if nsInfo.NSType ≠ SimpleNameService then
          let node := hashHex (BytesToHash (NameHash c nameWithSuffix).1)
          match getResolver c (HexToAddress nsInfo.NSAddr) node nameServiceChain nameWithSuffix with
          | .error e => .err (.web3 e)
          | .ok resolver =>
            resolve c cfg nameServiceChain resolver ["addr", "bytes32!" ++ node]
        else
          let nameBytes := c.strBytes nameWithSuffix
          let args := ["pointers", "bytes32!" ++
            hashHex (BytesToHash (rightPad32 (nameBytes.take (nameBytes.length - 4))))]
          resolve c cfg nameServiceChain (HexToAddress nsInfo.NSAddr) args

/-- getAddressFromNameServiceWebHandler: like getAddressFromNameService
but first probes webHandler (w3ns) or text(node, "contentcontract")
(other hierarchical services), falling back to addr(node) when the probe
returns the empty sentinel or its output fails to parse. -/
def getAddressFromNameServiceWebHandler (c : Caps) (cfg : Config)
    (nameServiceChain nameWithSuffix : String) : GoResult (Address × String) :=
  if IsHexAddress nameWithSuffix then .ok (HexToAddress nameWithSuffix, "")
  else
    match getConfigs cfg nameServiceChain nameWithSuffix with
    | .error we => .err (.web3 we)
    | .ok (nsInfo, rpc) =>
      match c.dial rpc with
      | .error _ => .err (.web3 ⟨500, "internal server error"⟩)
      | .ok _ =>
        if nsInfo.NSType ≠ SimpleNameService then
          let node := hashHex (BytesToHash (NameHash c nameWithSuffix).1)
          match getResolver c (HexToAddress nsInfo.NSAddr) node nameServiceChain nameWithSuffix with
          | .error e => .err (.web3 e)
          | .ok resolver =>
            let probe :=
              if nsInfo.NSType = Web3QNameService then
                (["webHandler", "bytes32!" ++ node], "(address)")
              else
                (["text", "bytes32!" ++ node, "string!contentcontract"], "(string)")
            match c.parseArgs nameServiceChain resolver probe.1 with
            | .error e => .err (.web3 e)
            | .ok msg =>
              match c.hcall msg with
              | .error we => .err (.web3 we)
              | .ok bs =>
                if Bytes2Hex bs ≠ EmptyString then
                  match parseOutput c.codec bs probe.2 with
                  | .ok res =>
                    (match res with
                     | GoValue.str s :: _ =>
                       (match parseChainSpecificAddress cfg s with
                        | .error e => .err (.web3 e)
                        | .ok r => .ok r)
                     | _ :: _ => .panics "interface conversion: interface is not string"
                     | [] => .panics "runtime error: index out of range")
                  | .panics p => .panics p
                  | .err _ =>
                    resolve c cfg nameServiceChain resolver ["addr", "bytes32!" ++ node]
                else
                  resolve c cfg nameServiceChain resolver ["addr", "bytes32!" ++ node]
        else
          let nameBytes := c.strBytes nameWithSuffix
          let args := ["pointers", "bytes32!" ++
            hashHex (BytesToHash (rightPad32 (nameBytes.take (nameBytes.length - 4))))]
          resolve c cfg nameServiceChain (HexToAddress nsInfo.NSAddr) args

end Ens

namespace Core

/-- ContractCallMode constant. -/
def ContractCallModeCalldata : String := "calldata"

/-- ContractCallMode constant. -/
def ContractCallModeMethod : String := "method"

/-- ContractReturnProcessing constant. -/
def ContractReturnProcessingABIEncodedBytes : String := "decodeABIEncodedBytes"

/-- ContractReturnProcessing constant. -/
def ContractReturnProcessingRawBytesJsonEncoded : String := "jsonEncodeRawBytes"

/-- ContractReturnProcessing constant. -/
def ContractReturnProcessingJsonEncodeValues : String := "jsonEncodeValues"

/-- ContractReturnProcessing constant. -/
def ContractReturnProcessingErc5219 : String := "erc5219"

/-- Configuration as consumed by the fetch pipeline: chain identifiers
are ints there. -/
structure Config where
  ChainConfigs : Int → Option ChainConfig
  NameAddrCacheDurationInMinutes : Nat := 60

/-- Config.ChainConfigs[chainId].RPC: a missing key yields the zero
ChainConfig, whose RPC is the empty string. -/
def Config.rpcOf (cfg : Config) (chainId : Int) : String :=
  match cfg.ChainConfigs chainId with
  | some ci => ci.RPC
  | none => ""

/-- Web3URL: the parsed call plan. Method argument types are carried by
their canonical string form (abi.Type.String()). -/
structure Web3URL where
  Url : String := ""
  HostDomainNameResolver : String := ""
  HostDomainNameResolverChainId : Int := 0
  ContractAddress : Address := zeroAddress
  ChainId : Int := 0
  ResolveMode : String := ""
  ContractCallMode : String := ""
  Calldata : Bytes := []
  MethodName : String := ""
  MethodArgs : List ABIType := []
  MethodArgValues : List GoValue := []
  ContractReturnProcessing : String := ""
  DecodedABIEncodedBytesMimeType : String := ""
  JsonEncodedValueTypes : List ABIType := []

/-- FetchedWeb3URL: the processed response envelope. Fields keep their Go
zero values until assigned. -/
structure FetchedWeb3URL where
  ParsedUrl : Option Web3URL := none
  ContractReturn : Bytes := []
  Output : Bytes := []
  HttpCode : Nat := 0
  HttpHeaders : List (String × String) := []

/-- The capabilities injected into the fetch pipeline: keccak-256 of a
signature string's bytes (crypto.Keccak256Hash), ABI argument packing
(abi.Arguments.Pack), the RPC transport, the ABI codec, JSON marshalling,
and the parseArguments helper whose Go definition is outside the provided
sources (modelled from the spec: it builds the call message for a
method-plus-typed-arguments description or fails with a Web3Error). -/
structure Caps where
  keccak : String → Bytes
  pack : List ABIType → List GoValue → Except String Bytes
  dial : String → Except String Unit
  call : CallMsg → Except String Bytes
  parseArgs : Int → Address → List String → Except Web3Error CallMsg
  codec : Codec
  marshalStrings : List String → Except String Bytes
  marshalValues : List GoValue → Except String Bytes

/-- checkResolveMode: probe resolveMode() on the target contract. A
parseArguments failure is an explicit panic in the source; a Dial failure
is discarded, after which the contract call on the nil client is a
runtime panic; a contract-call error yields auto; a 32-byte return equal
to right-padded ASCII "manual" or "5219" selects the matching mode; any
other return yields auto. -/
def checkResolveMode (c : Caps) (cfg : Config) (web3Url : Web3URL) : GoResult String :=
  match c.parseArgs 0 web3Url.ContractAddress ["resolveMode"] with
  | .error e => .panics e.message
  | .ok msg =>
    match c.dial (cfg.rpcOf web3Url.ChainId) with
    | .error _ => .panics "runtime error: invalid memory address or nil pointer dereference"
    | .ok _ =>
      match c.call msg with
      | .error _ => .ok ResolveModeAuto
      | .ok bs =>
        if bs.length = 32 then
          if Bytes2Hex bs = "6d616e75616c0000000000000000000000000000000000000000000000000000" then
            .ok ResolveModeManual
          else if Bytes2Hex bs = "3532313900000000000000000000000000000000000000000000000000000000" then
            .ok ResolveModeResourceRequests
          else .ok ResolveModeAuto
        else .ok ResolveModeAuto

/-- The signature-building loop of FetchContractReturn: append each
argument type's string, followed by a comma while the index is below
len - 1. -/
def appendSigArgs (total : Nat) : List ABIType → Nat → String → String
  | [], _, acc => acc
  | arg :: rest, i, acc =>
    appendSigArgs total rest (i + 1)
      (if i < total - 1 then acc ++ arg.str ++ "," else acc ++ arg.str)

/-- The method signature string built by FetchContractReturn:
name + "(" + loop over the argument types + ")". -/
def buildMethodSignature (name : String) (args : List ABIType) : String :=
  appendSigArgs args.length args 0 (name ++ "(") ++ ")"

/-- The calldata-determining prefix of FetchContractReturn. In method
mode the arguments are ABI-packed (a packing failure returns that error
unchanged) and the calldata is the first 4 bytes of the keccak-256 of
the method signature followed by the packed arguments; in calldata mode
the raw calldata passes through. When the call mode is empty the source
assigns err = errors.New("ContractCallMode is empty") WITHOUT returning;
that local err is then overwritten by the Dial assignment, so execution
continues with a nil calldata. -/
def fetchCalldata (c : Caps) (u : Web3URL) : Except GoError Bytes :=
  if u.ContractCallMode = ContractCallModeMethod then
    match c.pack u.MethodArgs u.MethodArgValues with
    | .error e => .error (.plain e)
    | .ok packed =>
      .ok ((c.keccak (buildMethodSignature u.MethodName u.MethodArgs)).take 4 ++ packed)
  else if u.ContractCallMode = ContractCallModeCalldata then .ok u.Calldata
  else .ok []

/-- The canonical explanatory message for an empty contract return. -/
def emptyReturnMessage : String :=
  "The contract returned no data (\"0x\").\n\nThis could be due to any of the following:\n  - The contract does not have the requested function,\n  - The parameters passed to the contract function may be invalid, or\n  - The address is not a contract."

/-- FetchContractReturn: derive the calldata, dial the target chain's
RPC (a dial failure is surfaced as a 400 Web3Error), perform one read
call from the zero address (an RPC error is a 404), and reject an empty
return with the canonical 404 message. -/
def FetchContractReturn (c : Caps) (cfg : Config) (u : Web3URL) : Except GoError Bytes :=
  match fetchCalldata c u with
  | .error e => .error e
  | .ok calldata =>
    match c.dial (cfg.rpcOf u.ChainId) with
    | .error e => .error (.web3 ⟨400, e⟩)
    | .ok _ =>
      match c.call ⟨zeroAddress, u.ContractAddress, calldata⟩ with
      | .error e => .error (.web3 ⟨404, e⟩)
      | .ok ret =>
        if ret.length = 0 then .error (.web3 ⟨404, emptyReturnMessage⟩)
        else .ok ret

/-- The value-formatting loop of the jsonEncodeValues branch: toJSON each
decoded value against its declared type; here a toJSON error IS returned;
indexing past the end of the decoded values is a runtime panic; decoded
values beyond the declared types are not appended. -/
def formatValues (c : Codec) : List ABIType → List GoValue → GoResult (List GoValue)
  | [], _ => .ok []
  | _ :: _, [] => .panics "runtime error: index out of range"
  | ty :: tys, v :: vs =>
    match c.toJSON ty v with
    | (_, some e) => .err (.plain e)
    | (fv, none) =>
      match formatValues c tys vs with
      | .ok rest => .ok (fv :: rest)
      | .err e => .err e
      | .panics p => .panics p

/-- ProcessContractReturn: dispatch on the declared return processing.
An empty ContractReturnProcessing is a plain internal error; the three
implemented processings shape the output; any other value (in particular
erc5219) falls through every branch and the zero-initialized record is
returned with a nil error. -/
def ProcessContractReturn (c : Caps) (u : Web3URL) (contractReturn : Bytes) :
    GoResult FetchedWeb3URL :=
  if u.ContractReturnProcessing = "" then
    .err (.plain "Missing ContractReturnProcessing field")
  else if u.ContractReturnProcessing = ContractReturnProcessingABIEncodedBytes then
    -- the abi.NewType error is discarded in the source
    let bytesType := (c.codec.newType "bytes").1
    match c.codec.unpack [bytesType] contractReturn with
    | .error _ => .err (.web3 ⟨400, "Unable to parse contract output"⟩)
    | .ok unpackedValues =>
      match unpackedValues with
      | GoValue.bytes b :: _ =>
        .ok { Output := b, HttpCode := 200,
              HttpHeaders :=
                if u.DecodedABIEncodedBytesMimeType ≠ "" then
                  [("Content-Type", u.DecodedABIEncodedBytesMimeType)]
                else [] }
      | _ :: _ => .panics "interface conversion: interface is not byte slice"
      | [] => .panics "runtime error: index out of range"
  else if u.ContractReturnProcessing = ContractReturnProcessingRawBytesJsonEncoded then
    match c.marshalStrings ["0x" ++ Bytes2Hex contractReturn] with
    | .error e => .err (.plain e)
    | .ok out =>
      .ok { Output := out, HttpCode := 200,
            HttpHeaders := [("Content-Type", "application/json")] }
  else if u.ContractReturnProcessing = ContractReturnProcessingJsonEncodeValues then
    match c.codec.unpack u.JsonEncodedValueTypes contractReturn with
    | .error _ => .err (.web3 ⟨400, "Unable to parse contract output"⟩)
    | .ok unpackedValues =>
      match formatValues c.codec u.JsonEncodedValueTypes unpackedValues with
      | .err e => .err e
      | .panics p => .panics p
      | .ok formattedValues =>
        match c.marshalValues formattedValues with
        | .error e => .err (.plain e)
        | .ok out =>
          .ok { Output := out, HttpCode := 200,
                HttpHeaders := [("Content-Type", "application/json")] }
  else .ok ({} : FetchedWeb3URL)

end Core

/-! ## Claim-side reference definitions -/

/-- The 32-byte value holding ASCII "manual" right-padded with zeros. -/
def manualBytes32 : Bytes :=
  [0x6d, 0x61, 0x6e, 0x75, 0x61, 0x6c] ++ List.replicate 26 (0 : Byte)

/-- The 32-byte value holding ASCII "5219" right-padded with zeros. -/
def resourceRequestBytes32 : Bytes :=
  [0x35, 0x32, 0x31, 0x39] ++ List.replicate 28 (0 : Byte)

theorem hex_manualBytes32 :
    Bytes2Hex manualBytes32 =
      "6d616e75616c0000000000000000000000000000000000000000000000000000" := by decide

theorem hex_resourceRequestBytes32 :
    Bytes2Hex resourceRequestBytes32 =
      "3532313900000000000000000000000000000000000000000000000000000000" := by decide

/-- Joining strings with commas and no spaces, as the claims word it. -/
def joinComma : List String → String
  | [] => ""
  | [a] => a
  | a :: rest => a ++ "," ++ joinComma rest

/-! ## Claim C1: resolve-mode selection -/

theorem checkResolveMode_of_ok (c : Core.Caps) (cfg : Core.Config) (u : Core.Web3URL)
    (msg : CallMsg) (bs : Bytes)
    (hargs : c.parseArgs 0 u.ContractAddress ["resolveMode"] = .ok msg)
    (hdial : c.dial (cfg.rpcOf u.ChainId) = .ok ())
    (hc : c.call msg = .ok bs) :
    Core.checkResolveMode c cfg u =
      .ok (if bs = manualBytes32 then ResolveModeManual
           else if bs = resourceRequestBytes32 then ResolveModeResourceRequests
           else ResolveModeAuto) := by
  unfold Core.checkResolveMode
  simp only [hargs, hdial, hc]
  by_cases hm : bs = manualBytes32
  · subst hm
    have h32 : manualBytes32.length = 32 := by decide
    simp [h32, hex_manualBytes32]
  · by_cases hr : bs = resourceRequestBytes32
    · subst hr
      have h32 : resourceRequestBytes32.length = 32 := by decide
      have hne : Bytes2Hex resourceRequestBytes32 ≠
          "6d616e75616c0000000000000000000000000000000000000000000000000000" := by decide
      simp [h32, hne, hex_resourceRequestBytes32, hm]
    · have hhm : Bytes2Hex bs ≠
          "6d616e75616c0000000000000000000000000000000000000000000000000000" :=
        fun h => hm (Bytes2Hex_inj (h.trans hex_manualBytes32.symm))
      have hhr : Bytes2Hex bs ≠
          "3532313900000000000000000000000000000000000000000000000000000000" :=
        fun h => hr (Bytes2Hex_inj (h.trans hex_resourceRequestBytes32.symm))
      by_cases hl : bs.length = 32
      · simp [hl, hhm, hhr, hm, hr]
      · simp [hl, hm, hr]

/-- Claim C1: with the probe's call message built and the RPC dialed, the
resolve-mode selection returns manual exactly when the contract call
returns the 32-byte right-padded ASCII "manual", resource-request exactly
when it returns right-padded ASCII "5219", auto on every call error, and
auto on every other returned value. -/
theorem claim_C1_resolve_mode_selection (c : Core.Caps) (cfg : Core.Config)
    (u : Core.Web3URL) (msg : CallMsg)
    (hargs : c.parseArgs 0 u.ContractAddress ["resolveMode"] = .ok msg)
    (hdial : c.dial (cfg.rpcOf u.ChainId) = .ok ()) :
    (Core.checkResolveMode c cfg u = .ok ResolveModeManual ↔ c.call msg = .ok manualBytes32)
    ∧ (Core.checkResolveMode c cfg u = .ok ResolveModeResourceRequests ↔
        c.call msg = .ok resourceRequestBytes32)
    ∧ (∀ e, c.call msg = .error e → Core.checkResolveMode c cfg u = .ok ResolveModeAuto)
    ∧ (∀ bs, c.call msg = .ok bs → bs ≠ manualBytes32 → bs ≠ resourceRequestBytes32 →
        Core.checkResolveMode c cfg u = .ok ResolveModeAuto) := by
  have herr : ∀ e, c.call msg = .error e →
      Core.checkResolveMode c cfg u = .ok ResolveModeAuto := by
    intro e he
    unfold Core.checkResolveMode
    simp only [hargs, hdial, he]
  have hAM : ResolveModeAuto ≠ ResolveModeManual := by decide
  have hAR : ResolveModeAuto ≠ ResolveModeResourceRequests := by decide
  have hRM : ResolveModeResourceRequests ≠ ResolveModeManual := by decide
  have hMR : ResolveModeManual ≠ ResolveModeResourceRequests := by decide
  have hrm : resourceRequestBytes32 ≠ manualBytes32 := by decide
  refine ⟨?_, ?_, herr, ?_⟩
  · constructor
    · intro h
      cases hc : c.call msg with
      | error e =>
        rw [herr e hc] at h
        simp at h
        exact absurd h hAM
      | ok bs =>
        rw [checkResolveMode_of_ok c cfg u msg bs hargs hdial hc] at h
        by_cases hm : bs = manualBytes32
        · exact congrArg Except.ok hm
        · exfalso
          by_cases hr : bs = resourceRequestBytes32
          · rw [if_neg hm, if_pos hr] at h
            simp at h
            exact absurd h hRM
          · rw [if_neg hm, if_neg hr] at h
            simp at h
            exact absurd h hAM
    · intro h
      rw [checkResolveMode_of_ok c cfg u msg manualBytes32 hargs hdial h]
      simp
  · constructor
    · intro h
      cases hc : c.call msg with
      | error e =>
        rw [herr e hc] at h
        simp at h
        exact absurd h hAR
      | ok bs =>
        rw [checkResolveMode_of_ok c cfg u msg bs hargs hdial hc] at h
        by_cases hr : bs = resourceRequestBytes32
        · exact congrArg Except.ok hr
        · exfalso
          by_cases hm : bs = manualBytes32
          · rw [if_pos hm] at h
            simp at h
            exact absurd h hMR
          · rw [if_neg hm, if_neg hr] at h
            simp at h
            exact absurd h hAR
    · intro h
      rw [checkResolveMode_of_ok c cfg u msg resourceRequestBytes32 hargs hdial h]
      rw [if_neg hrm, if_pos rfl]
  · intro bs hc hm hr
    rw [checkResolveMode_of_ok c cfg u msg bs hargs hdial hc]
    rw [if_neg hm, if_neg hr]

/-! Concrete instantiations used by the witnesses. -/

def wMsg : CallMsg := ⟨zeroAddress, zeroAddress, []⟩

def wCodec : Codec :=
  ⟨fun s => (⟨s⟩, none), fun _ _ => .ok [], fun _ v => (v, none)⟩

def wCapsManual : Core.Caps where
  keccak := fun _ => []
  pack := fun _ _ => .ok []
  dial := fun _ => .ok ()
  call := fun _ => .ok manualBytes32
  parseArgs := fun _ _ _ => .ok wMsg
  codec := wCodec
  marshalStrings := fun _ => .ok []
  marshalValues := fun _ => .ok []

def wCfg : Core.Config := ⟨fun _ => none, 60⟩

def wUrl : Core.Web3URL := {}

/-- Witness for claim C1 at a concrete probe whose contract returns the
right-padded ASCII "manual". -/
theorem claim_C1_witness :
    Core.checkResolveMode wCapsManual wCfg wUrl = .ok ResolveModeManual :=
  (claim_C1_resolve_mode_selection wCapsManual wCfg wUrl wMsg rfl rfl).1.mpr rfl

/-! ## Claim C2: method-mode calldata -/

theorem appendSigArgs_nil (total : Nat) (i : Nat) (acc : String) :
    Core.appendSigArgs total [] i acc = acc := rfl

theorem appendSigArgs_cons (total : Nat) (arg : ABIType) (rest : List ABIType)
    (i : Nat) (acc : String) :
    Core.appendSigArgs total (arg :: rest) i acc =
      Core.appendSigArgs total rest (i + 1)
        (if i < total - 1 then acc ++ arg.str ++ "," else acc ++ arg.str) := rfl

theorem appendSigArgs_eq (l : List ABIType) : ∀ (i : Nat) (acc : String),
    Core.appendSigArgs (i + l.length) l i acc = acc ++ joinComma (l.map ABIType.str) := by
  induction l with
  | nil =>
    intro i acc
    rw [appendSigArgs_nil]
    simp [joinComma, sappend_empty]
  | cons a l ih =>
    intro i acc
    cases l with
    | nil =>
      have hcond : ¬ i < i + [a].length - 1 := by
        simp only [List.length_cons, List.length_nil]
        omega
      rw [appendSigArgs_cons, if_neg hcond, appendSigArgs_nil]
      simp [joinComma]
    | cons b m =>
      have hcond : i < i + (a :: b :: m).length - 1 := by
        simp only [List.length_cons]
        omega
      have hlen : i + (a :: b :: m).length = (i + 1) + (b :: m).length := by
        simp only [List.length_cons]
        omega
      rw [appendSigArgs_cons, if_pos hcond, hlen, ih (i + 1) (acc ++ a.str ++ ",")]
      apply string_eq_of_data
      simp [data_append, joinComma]

theorem buildMethodSignature_eq (name : String) (args : List ABIType) :
    Core.buildMethodSignature name args =
      name ++ "(" ++ joinComma (args.map ABIType.str) ++ ")" := by
  unfold Core.buildMethodSignature
  have h := appendSigArgs_eq args 0 (name ++ "(")
  rw [Nat.zero_add] at h
  rw [h]

/-- Claim C2: in method mode, once the arguments pack, the calldata is
the first 4 bytes of the keccak-256 of the signature string
name(type1,type2,...) - the canonical argument type strings joined with
commas and no spaces - followed by the ABI-packed argument values. -/
theorem claim_C2_method_calldata (c : Core.Caps) (u : Core.Web3URL) (packed : Bytes)
    (hmode : u.ContractCallMode = Core.ContractCallModeMethod)
    (hpack : c.pack u.MethodArgs u.MethodArgValues = .ok packed) :
    Core.fetchCalldata c u =
      .ok ((c.keccak
        (u.MethodName ++ "(" ++ joinComma (u.MethodArgs.map ABIType.str) ++ ")")).take 4
        ++ packed) := by
  unfold Core.fetchCalldata
  rw [if_pos hmode]
  simp only [hpack]
  rw [buildMethodSignature_eq]

def wUrlMethod : Core.Web3URL :=
  { ContractCallMode := Core.ContractCallModeMethod,
    MethodName := "balanceOf",
    MethodArgs := [⟨"address"⟩, ⟨"uint256"⟩] }

/-- Witness for claim C2 at a concrete method-mode URL. -/
theorem claim_C2_witness : Core.fetchCalldata wCapsManual wUrlMethod = .ok [] :=
  claim_C2_method_calldata wCapsManual wUrlMethod [] rfl rfl

/-! ## Claim C3: NameHash recursion -/

/-- The namehash recursion exactly as the claim words it: start from 32
zero bytes and, over the labels from rightmost to leftmost, replace the
hash with keccak256(previous hash || keccak256(label)). -/
def namehashIter (keccak : Bytes → Bytes) (strBytes : String → Bytes) : List String → Bytes
  | [] => zeroHash32
  | l :: rest => keccak (namehashIter keccak strBytes rest ++ keccak (strBytes l))

theorem foldr_nameHashPart_eq (keccak : Bytes → Bytes) (strBytes : String → Bytes)
    (parts : List String) :
    parts.foldr (fun part h => Ens.nameHashPart keccak strBytes h part) zeroHash32 =
      namehashIter keccak strBytes parts := by
  induction parts with
  | nil => rfl
  | cons p ps ih =>
    simp only [List.foldr_cons, namehashIter]
    rw [ih]
    rfl

/-- Claim C3: NameHash of the empty string is 32 zero bytes; for every
name whose normalization succeeds, NameHash equals the right-to-left
keccak recursion over the normalized labels; and in particular, when the
normalized whole name splits as the normalization of the first label
followed by the labels of the normalized remainder,
namehash(a.rest) = keccak256(namehash(rest) || keccak256(normalize(a))). -/
theorem claim_C3_namehash (c : Ens.Caps) :
    Ens.NameHash c "" = (zeroHash32, none)
    ∧ (∀ name norm, name ≠ "" → Ens.Normalize c.toUnicode name = (norm, none) →
        (Ens.NameHash c name).1 = namehashIter c.keccak c.strBytes (goSplit norm '.'))
    ∧ (∀ a rest nfull na nrest,
        rest ≠ "" →
        Ens.Normalize c.toUnicode (a ++ "." ++ rest) = (nfull, none) →
        Ens.Normalize c.toUnicode a = (na, none) →
        Ens.Normalize c.toUnicode rest = (nrest, none) →
        goSplit nfull '.' = na :: goSplit nrest '.' →
        (Ens.NameHash c (a ++ "." ++ rest)).1 =
          c.keccak ((Ens.NameHash c rest).1 ++ c.keccak (c.strBytes na))) := by
  have hgen : ∀ name norm, name ≠ "" → Ens.Normalize c.toUnicode name = (norm, none) →
      (Ens.NameHash c name).1 = namehashIter c.keccak c.strBytes (goSplit norm '.') := by
    intro name norm hne hnorm
    unfold Ens.NameHash
    rw [if_neg hne]
    simp only [hnorm]
    exact foldr_nameHashPart_eq c.keccak c.strBytes (goSplit norm '.')
  refine ⟨rfl, hgen, ?_⟩
  intro a rest nfull na nrest hrest hfull _hna hnr hsplit
  have hfne : a ++ "." ++ rest ≠ "" := by
    intro h
    have := congrArg String.data h
    simp [data_append] at this
  rw [hgen (a ++ "." ++ rest) nfull hfne hfull, hsplit]
  rw [hgen rest nrest hrest hnr]
  rfl

def wEnsCaps : Ens.Caps where
  toUnicode := fun s => (s, none)
  keccak := fun bs => [⟨bs.length % 256, by omega⟩]
  strBytes := fun s => s.data.map (fun ch => ⟨ch.toNat % 256, by omega⟩)
  dial := fun _ => .ok ()
  call := fun _ => .error "no rpc"
  hcall := fun _ => .error ⟨404, "no rpc"⟩
  parseArgs := fun _ _ _ => .ok wMsg
  codec := wCodec

/-- Witness for claim C3 at the concrete name a.b.c under an identity
normalizer. -/
theorem claim_C3_witness :
    (Ens.NameHash wEnsCaps ("a" ++ "." ++ "b.c")).1 =
      wEnsCaps.keccak ((Ens.NameHash wEnsCaps "b.c").1 ++
        wEnsCaps.keccak (wEnsCaps.strBytes "a")) :=
  (claim_C3_namehash wEnsCaps).2.2 "a" "b.c" "a.b.c" "a" "b.c"
    (by decide) rfl rfl rfl (by decide)

/-! ## Claim C4: empty contract return is a canonical 404 -/

/-- Claim C4: a contract call that succeeds at the RPC level but returns
zero bytes yields a Web3Error with HTTP code 404 carrying the canonical
empty-return message. -/
theorem claim_C4_empty_return_404 (c : Core.Caps) (cfg : Core.Config) (u : Core.Web3URL)
    (cd : Bytes)
    (hcd : Core.fetchCalldata c u = .ok cd)
    (hdial : c.dial (cfg.rpcOf u.ChainId) = .ok ())
    (hcall : c.call ⟨zeroAddress, u.ContractAddress, cd⟩ = .ok []) :
    Core.FetchContractReturn c cfg u = .error (.web3 ⟨404, Core.emptyReturnMessage⟩) := by
  unfold Core.FetchContractReturn
  simp only [hcd, hdial, hcall]
  rfl

def wCapsEmptyRet : Core.Caps := { wCapsManual with call := fun _ => .ok [] }

def wUrlCalldata : Core.Web3URL := { ContractCallMode := Core.ContractCallModeCalldata }

/-- Witness for claim C4 at a concrete calldata-mode URL whose call
returns zero bytes. -/
theorem claim_C4_witness :
    Core.FetchContractReturn wCapsEmptyRet wCfg wUrlCalldata =
      .error (.web3 ⟨404, Core.emptyReturnMessage⟩) :=
  claim_C4_empty_return_404 wCapsEmptyRet wCfg wUrlCalldata [] rfl rfl rfl

/-! ## Claim C5: the final addr lookup on a zero address -/

def wEnsCfg : Ens.Config where
  ChainConfigs := fun ch =>
    if ch = "1" then
      some ⟨"http://rpc", fun suf =>
        if suf = "eth" then some ⟨DomainNameServiceENS, "0x00"⟩ else none⟩
    else none
  Name2Chain := fun n => if n = "gno" then some "100" else none

def wEnsCapsZeroAddr : Ens.Caps := { wEnsCaps with call := fun _ => .ok zeroHash32 }

/-- Claim C5 is half right on the code: an RPC failure in resolve is
surfaced as a 404 Web3Error, but a successfully returned all-zero
address makes the source call Error() on a nil error interface, a
runtime panic rather than a 404. Both behaviors evaluated at concrete
inputs. -/
theorem claim_C5_zero_address_code_bug :
    Ens.resolve wEnsCapsZeroAddr wEnsCfg "1" zeroAddress ["addr", "bytes32!0x00"] =
      .panics "runtime error: invalid memory address or nil pointer dereference"
    ∧ Ens.resolve wEnsCaps wEnsCfg "1" zeroAddress ["addr", "bytes32!0x00"] =
      .err (.web3 ⟨404, "no rpc"⟩) :=
  ⟨rfl, rfl⟩

/-! ## Claim C6: empty call mode -/

def wCapsEcho : Core.Caps := { wCapsManual with call := fun msg => .ok (0xAB :: msg.data) }

/-- Claim C6 is contradicted by the code: with an empty ContractCallMode
the source assigns err = errors.New("ContractCallMode is empty") but does
not return; the err local is overwritten by the Dial assignment and the
contract call is performed with a nil calldata. Evaluated concretely: the
calldata step yields nil bytes with no surfaced error, and the fetch
returns the contract data (here marker byte 0xAB echoed over the empty
calldata) with no error at all. -/
theorem claim_C6_empty_call_mode_bug :
    Core.fetchCalldata wCapsEcho wUrl = .ok []
    ∧ Core.FetchContractReturn wCapsEcho wCfg wUrl = .ok [0xAB] :=
  ⟨rfl, rfl⟩

/-! ## Claim C7: dial failures -/

/-- The HTTP code of a user-surfaced Web3Error outcome, if any. -/
def surfacedHttpCode (r : Except GoError Bytes) : Option Nat :=
  match r with
  | .error (.web3 e) => some e.httpCode
  | _ => none

def wCapsDialFail : Core.Caps := { wCapsManual with dial := fun _ => .error "dial failed" }

/-- Counterexample to claim C7: a dial failure inside FetchContractReturn
is surfaced as a Web3Error with HTTP code 400, not 500. -/
theorem claim_C7_counterexample :
    Core.FetchContractReturn wCapsDialFail wCfg wUrlCalldata =
      .error (.web3 ⟨400, "dial failed"⟩)
    ∧ surfacedHttpCode (Core.FetchContractReturn wCapsDialFail wCfg wUrlCalldata) ≠ some 500 :=
  ⟨rfl, by decide⟩

/-- Claim C7 as amended: a dial failure in either name-service resolver
surfaces a Web3Error with HTTP code 500 and the message
"internal server error", but a dial failure in FetchContractReturn
surfaces a Web3Error with HTTP code 400 carrying the dial error
message. -/
theorem claim_C7_amended_dial_failures (c : Core.Caps) (cfg : Core.Config)
    (u : Core.Web3URL) (ec : Ens.Caps) (ecfg : Ens.Config) :
    (∀ cd m, Core.fetchCalldata c u = .ok cd →
      c.dial (cfg.rpcOf u.ChainId) = .error m →
      Core.FetchContractReturn c cfg u = .error (.web3 ⟨400, m⟩))
    ∧ (∀ chain name nsInfo rpc m, IsHexAddress name = false →
        Ens.getConfigs ecfg chain name = .ok (nsInfo, rpc) →
        ec.dial rpc = .error m →
        Ens.getAddressFromNameService ec ecfg chain name =
          .err (.web3 ⟨500, "internal server error"⟩))
    ∧ (∀ chain name nsInfo rpc m, IsHexAddress name = false →
        Ens.getConfigs ecfg chain name = .ok (nsInfo, rpc) →
        ec.dial rpc = .error m →
        Ens.getAddressFromNameServiceWebHandler ec ecfg chain name =
          .err (.web3 ⟨500, "internal server error"⟩)) := by
  refine ⟨?_, ?_, ?_⟩
  · intro cd m hcd hdial
    unfold Core.FetchContractReturn
    simp only [hcd, hdial]
  · intro chain name nsInfo rpc m hhex hconf hdial
    unfold Ens.getAddressFromNameService
    simp only [hhex, hconf, hdial]
    rfl
  · intro chain name nsInfo rpc m hhex hconf hdial
    unfold Ens.getAddressFromNameServiceWebHandler
    simp only [hhex, hconf, hdial]
    rfl

def wEnsCapsDialFail : Ens.Caps := { wEnsCaps with dial := fun _ => .error "dial failed" }

/-- Witness for the amended claim C7 at concrete dial failures on all
three dial sites. -/
theorem claim_C7_amended_witness :
    Core.FetchContractReturn wCapsDialFail wCfg wUrlCalldata =
      .error (.web3 ⟨400, "dial failed"⟩)
    ∧ Ens.getAddressFromNameService wEnsCapsDialFail wEnsCfg "1" "example.eth" =
      .err (.web3 ⟨500, "internal server error"⟩)
    ∧ Ens.getAddressFromNameServiceWebHandler wEnsCapsDialFail wEnsCfg "1" "example.eth" =
      .err (.web3 ⟨500, "internal server error"⟩) :=
  ⟨(claim_C7_amended_dial_failures wCapsDialFail wCfg wUrlCalldata wEnsCapsDialFail wEnsCfg).1
      [] "dial failed" rfl rfl,
   (claim_C7_amended_dial_failures wCapsDialFail wCfg wUrlCalldata wEnsCapsDialFail wEnsCfg).2.1
      "1" "example.eth" ⟨DomainNameServiceENS, "0x00"⟩ "http://rpc" "dial failed" rfl rfl rfl,
   (claim_C7_amended_dial_failures wCapsDialFail wCfg wUrlCalldata wEnsCapsDialFail wEnsCfg).2.2
      "1" "example.eth" ⟨DomainNameServiceENS, "0x00"⟩ "http://rpc" "dial failed" rfl rfl rfl⟩

/-! ## Claim C8: EIP-3770 address parsing -/

/-- Claim C8: a literal hex address is returned with no chain override
(the empty chain string, the string-typed counterpart of chain 0);
otherwise the parser succeeds exactly when the input splits on the colon
into two parts whose lowercased left part is a key of Name2Chain and
whose right part is a hex address, the returned chain being the looked-up
one; and every failure is a Web3Error with HTTP code 400. -/
theorem claim_C8_eip3770 (cfg : Ens.Config) (addr : String) :
    (IsHexAddress addr = true →
      Ens.parseChainSpecificAddress cfg addr = .ok (HexToAddress addr, ""))
    ∧ (IsHexAddress addr = false → ∀ a ch,
        (Ens.parseChainSpecificAddress cfg addr = .ok (a, ch) ↔
          ∃ l r, goSplit addr ':' = [l, r] ∧ cfg.Name2Chain (goToLower l) = some ch ∧
            IsHexAddress r = true ∧ a = HexToAddress r))
    ∧ (∀ e, Ens.parseChainSpecificAddress cfg addr = .error e → e.httpCode = 400) := by
  refine ⟨?_, ?_, ?_⟩
  · intro hhex
    unfold Ens.parseChainSpecificAddress
    simp only [hhex]
    rfl
  · intro hhex a ch
    unfold Ens.parseChainSpecificAddress
    simp only [hhex, Bool.false_eq_true, if_false]
    constructor
    · intro h
      rcases hsplit : goSplit addr ':' with _ | ⟨l, _ | ⟨r, _ | ⟨s, rest⟩⟩⟩
      · rw [hsplit] at h
        simp at h
      · rw [hsplit] at h
        simp at h
      · rw [hsplit] at h
        simp only [] at h
        cases hn : cfg.Name2Chain (goToLower l) with
        | none =>
          rw [hn] at h
          simp at h
        | some ch2 =>
          rw [hn] at h
          cases hr : IsHexAddress r with
          | false =>
            rw [hr] at h
            simp at h
          | true =>
            rw [hr] at h
            simp at h
            exact ⟨l, r, rfl, by rw [hn, h.2], hr, h.1.symm⟩
      · rw [hsplit] at h
        simp at h
    · rintro ⟨l, r, hsplit, hn, hr, ha⟩
      subst ha
      rw [hsplit]
      simp [hn, hr]
  · intro e he
    unfold Ens.parseChainSpecificAddress at he
    cases hhex : IsHexAddress addr with
    | true =>
      rw [hhex] at he
      simp at he
    | false =>
      rw [hhex] at he
      simp only [Bool.false_eq_true, if_false] at he
      rcases hsplit : goSplit addr ':' with _ | ⟨l, _ | ⟨r, _ | ⟨s, rest⟩⟩⟩
      · rw [hsplit] at he
        simp at he
        rw [← he]
      · rw [hsplit] at he
        simp at he
        rw [← he]
      · rw [hsplit] at he
        simp only [] at he
        cases hn : cfg.Name2Chain (goToLower l) with
        | none =>
          rw [hn] at he
          simp at he
          rw [← he]
        | some ch2 =>
          rw [hn] at he
          cases hr : IsHexAddress r with
          | false =>
            rw [hr] at he
            simp at he
            rw [← he]
          | true =>
            rw [hr] at he
            simp at he
      · rw [hsplit] at he
        simp at he
        rw [← he]

/-- Witness for claim C8 at a concrete chain-prefixed address. -/
theorem claim_C8_witness :
    Ens.parseChainSpecificAddress wEnsCfg "gno:0x1234567890123456789012345678901234567890" =
      .ok (HexToAddress "0x1234567890123456789012345678901234567890", "100") :=
  ((claim_C8_eip3770 wEnsCfg "gno:0x1234567890123456789012345678901234567890").2.1 rfl
      (HexToAddress "0x1234567890123456789012345678901234567890") "100").mpr
    ⟨"gno", "0x1234567890123456789012345678901234567890", by decide, rfl, by decide, rfl⟩

/-! ## Claim C9: leading-dot preservation -/

/-- A lookup profile that maps a leading character to a dot, as the real
IDNA mapping does for the ideographic full stops U+3002, U+FF0E and
U+FF61. -/
def dotIntroducingProfile : String → String × Option String := fun s => ("." ++ s, none)

/-- Counterexample to claim C9: under a profile whose ToUnicode output
introduces a leading dot (as IDNA mapping does for ideographic full
stops), the normalized output of "a" begins with a dot although the
input does not, so leading-dot preservation does not hold in both
directions. -/
theorem claim_C9_counterexample :
    goStartsWith (Ens.Normalize dotIntroducingProfile "a").1 "." = true
    ∧ goStartsWith "a" "." = false
    ∧ (Ens.Normalize dotIntroducingProfile "a").2 = none :=
  ⟨rfl, rfl, rfl⟩

/-- Claim C9 as amended: when normalization succeeds, the output begins
with a dot whenever the input does; and an output beginning with a dot
means the input began with a dot or the profile's own ToUnicode output
already began with one. -/
theorem claim_C9_amended_leading_dot (tu : String → String × Option String) (x : String)
    (hsucc : (Ens.Normalize tu x).2 = none) :
    (goStartsWith x "." = true → goStartsWith (Ens.Normalize tu x).1 "." = true)
    ∧ (goStartsWith (Ens.Normalize tu x).1 "." = true →
        goStartsWith x "." = true ∨ goStartsWith (tu x).1 "." = true) := by
  cases htu : tu x with
  | mk out err =>
    cases err with
    | some e =>
      exfalso
      unfold Ens.Normalize at hsucc
      rw [htu] at hsucc
      simp at hsucc
    | none =>
      unfold Ens.Normalize
      rw [htu]
      cases hxb : goStartsWith x "." with
      | true =>
        cases hob : goStartsWith out "." with
        | true => simp [hxb, hob]
        | false =>
          have hdot : goStartsWith ("." ++ out) "." = true := by
            simp [goStartsWith, data_append, List.isPrefixOf]
          simp [hxb, hob, hdot]
      | false => simp [hxb]

/-- Witness for the amended claim C9 at the concrete input ".a" under an
identity profile. -/
theorem claim_C9_amended_witness :
    goStartsWith (Ens.Normalize (fun s => (s, none)) ".a").1 "." = true :=
  (claim_C9_amended_leading_dot (fun s => (s, none)) ".a" rfl).1 rfl

/-! ## Claim C10: erc5219 return processing falls through -/

/-- Claim C10: with ContractReturnProcessing erc5219, ProcessContractReturn
returns successfully, with a nil Output, HTTP code 0 and an empty header
map; no not-implemented error is produced. -/
theorem claim_C10_erc5219_passthrough (c : Core.Caps) (u : Core.Web3URL) (ret : Bytes)
    (h : u.ContractReturnProcessing = Core.ContractReturnProcessingErc5219) :
    Core.ProcessContractReturn c u ret =
      .ok { ParsedUrl := none, ContractReturn := [], Output := [],
            HttpCode := 0, HttpHeaders := [] } := by
  unfold Core.ProcessContractReturn
  rw [h]
  rfl

def wUrl5219 : Core.Web3URL :=
  { ContractReturnProcessing := Core.ContractReturnProcessingErc5219 }

/-- Witness for claim C10 at a concrete erc5219 URL and return. -/
theorem claim_C10_witness :
    Core.ProcessContractReturn wCapsManual wUrl5219 [0x01] =
      .ok { ParsedUrl := none, ContractReturn := [], Output := [],
            HttpCode := 0, HttpHeaders := [] } :=
  claim_C10_erc5219_passthrough wCapsManual wUrl5219 [0x01] rfl

end Web3Gateway
